import Mathlib

/-!
Verification of the agent-prompt synchronization tool (src/sync_agents.py).

The program is a thin orchestration layer over the git command line and the
local filesystem.  We embed it shallowly: every external call (a subprocess
invocation, a directory creation, a file read) is an oracle value supplied by
an environment structure, and each Python method of the `AgentSync` class
becomes a Lean function from that environment to its return value together
with the trace of external calls it performed.  Python exceptions are modelled
explicitly: an external call either completes with a process result or raises,
and a function either returns a value or lets an exception escape
(`Except.error`).
-/

/- ## Python string primitives, modelled structurally over the character data -/

/-- Whitespace characters removed by the Python str.strip() default. -/
def isPyWs (c : Char) : Bool :=
  c = ' ' || c = '\t' || c = '\n' || c = '\r' || c = '\x0b' || c = '\x0c'

/-- Python str.strip(): remove leading and trailing whitespace. -/
def pyStrip (s : String) : String :=
  ⟨((s.data.dropWhile isPyWs).reverse.dropWhile isPyWs).reverse⟩

/-- Split a character list at every newline character, keeping empty segments. -/
def splitSegs : List Char → List (List Char)
  | [] => [[]]
  | c :: cs =>
    if c = '\n' then [] :: splitSegs cs
    else
      match splitSegs cs with
      | [] => [[c]]
      | s :: rest => (c :: s) :: rest

/-- Python str.split(chr(10)): split on newlines, keeping empty segments. -/
def pySplitNl (s : String) : List String :=
  (splitSegs s.data).map fun l => ⟨l⟩

/-- Python str.splitlines() restricted to newline-terminated text, which is the
only line-boundary form produced by the git commands this program invokes:
split on every newline and drop a final empty segment. -/
def splitlines (s : String) : List String :=
  let segs := splitSegs s.data
  let segs := if segs.getLast? = some ([] : List Char) then segs.dropLast else segs
  segs.map fun l => ⟨l⟩

/-- Decide whether the first list is a leading segment of the second. -/
def leadsWith : List Char → List Char → Bool
  | [], _ => true
  | _ :: _, [] => false
  | p :: ps, c :: cs => p = c && leadsWith ps cs

/-- Python str.startswith(p). -/
def pyStartsWith (s p : String) : Bool := leadsWith p.data s.data

/- ## Lexicographic order on strings, modelled structurally so that concrete
instances can be evaluated by the kernel -/

/-- Strict lexicographic order on character lists. -/
def charsLt : List Char → List Char → Bool
  | [], [] => false
  | [], _ :: _ => true
  | _ :: _, [] => false
  | a :: as, b :: bs => if a = b then charsLt as bs else decide (a < b)

/-- Strict lexicographic order on strings, as used by the Python sorted()
builtin when it compares the names of snapshot directories. -/
def strLt (a b : String) : Bool := charsLt a.data b.data

/-- Reflexive lexicographic order on strings. -/
def strLe (a b : String) : Bool := ! strLt b a

/-- The sorting relation handed to insertion sort. -/
def sortLe : String → String → Prop := fun a b => strLe a b = true

instance : DecidableRel sortLe := fun _ _ => instDecidableEqBool _ _

/- ## Outcomes of external calls -/

/-- Completed subprocess invocation: exit status, standard output and standard
error, as captured by subprocess.run. -/
structure ProcResult where
  returncode : Int
  stdout : String
  stderr : String
deriving DecidableEq

/-- Result of an external call: either a completed value or a raised Python
exception carrying a message. -/
inductive Outcome (α : Type) where
  | ok (a : α)
  | exn (msg : String)
deriving DecidableEq

/-- External calls the program can perform, recorded in traces.  The pull and
revList events carry the branch name that was attempted. -/
inductive Event where
  | clone
  | fetch
  | statusPorcelain
  | stashPush
  | lsTree
  | pull (branch : String)
  | revList (branch : String)
  | backupInvoked
  | logAppend (message : String)
  | readLog
  | globMd
deriving DecidableEq

/- ## The changed-file computation of AgentSync.sync -/

/-- Tracked-file set parsed from git ls-tree output:
set(result.stdout.splitlines()). -/
def tracked (r : ProcResult) : Finset String :=
  (splitlines r.stdout).toFinset

/-- The changed-file computation of AgentSync.sync:
after_files.symmetric_difference(before_files).  The Python code turns the
set into a list whose iteration order is unspecified, so the embedding keeps
the set itself. -/
def changed_files (before_files after_files : Finset String) : Finset String :=
  symmDiff after_files before_files

/- ## AgentSync.sync -/

/-- Environment for one invocation of AgentSync.sync: the state of the local
directory and the outcome of every external call the procedure can make, in
program order. -/
structure SyncEnv where
  /-- Whether agents_dir/.git exists, i.e. is_initialized(). -/
  gitExists : Bool
  /-- The configured repository URL, empty when unset. -/
  repoUrl : String
  /-- Whether agents_dir itself exists. -/
  dirExists : Bool
  /-- When agents_dir.mkdir(parents=True) is attempted: some message when it
  raises, none when it succeeds.  This call sits outside every try block. -/
  mkdirExn : Option String
  /-- Outcome of git clone. -/
  cloneRes : Outcome ProcResult
  /-- Outcome of git status --porcelain. -/
  statusRes : Outcome ProcResult
  /-- Outcome of git stash push. -/
  stashRes : Outcome ProcResult
  /-- Outcome of git ls-tree -r HEAD --name-only before the pull. -/
  lsBefore : Outcome ProcResult
  /-- Outcome of git pull origin main. -/
  pullMain : Outcome ProcResult
  /-- Outcome of git pull origin master. -/
  pullMaster : Outcome ProcResult
  /-- Outcome of git ls-tree -r HEAD --name-only after the pull. -/
  lsAfter : Outcome ProcResult

/-- AgentSync.initialize.  The repository URL check and the directory creation
happen outside the try block, so a directory-creation exception escapes; the
clone subprocess call is guarded, and a non-zero clone exit or a clone
exception yields False. -/
def initRepo (env : SyncEnv) : Except String Bool × List Event :=
  if env.repoUrl = "" then (Except.ok false, [])
  else
    match (if env.dirExists then none else env.mkdirExn) with
    | some msg => (Except.error msg, [])
    | none =>
      if env.gitExists then (Except.ok true, [])
      else
        match env.cloneRes with
        | Outcome.exn _ => (Except.ok false, [Event.clone])
        | Outcome.ok r =>
          if r.returncode = 0 then
            (Except.ok true, [Event.clone, Event.logAppend "Repository cloned successfully"])
          else (Except.ok false, [Event.clone])

/-- Tail of AgentSync.sync after a pull attempt exited 0: list the tracked
files again, compute the symmetric difference, log and return success. -/
def syncAfterPull (env : SyncEnv) (beforeFiles : Finset String) (tr : List Event) :
    Except String (Bool × Finset String) × List Event :=
  match env.lsAfter with
  | Outcome.exn _ => (Except.ok (false, ∅), tr ++ [Event.lsTree])
  | Outcome.ok af =>
    let afterFiles := tracked af
    let changed := changed_files beforeFiles afterFiles
    (Except.ok (true, changed),
      tr ++ [Event.lsTree,
        Event.logAppend ("Synced successfully. " ++ toString changed.card ++ " files changed.")])

/-- Middle of AgentSync.sync: snapshot the tracked files, pull origin main,
fall back to origin master on a non-zero exit, and fail with an empty list
when both attempts exit non-zero.  Any raise here is caught by the top-level
handler of sync, which converts it to a failure result. -/
def syncPull (env : SyncEnv) (tr : List Event) :
    Except String (Bool × Finset String) × List Event :=
  match env.lsBefore with
  | Outcome.exn _ => (Except.ok (false, ∅), tr ++ [Event.lsTree])
  | Outcome.ok bf =>
    let beforeFiles := tracked bf
    let tr1 := tr ++ [Event.lsTree]
    match env.pullMain with
    | Outcome.exn _ => (Except.ok (false, ∅), tr1 ++ [Event.pull "main"])
    | Outcome.ok pm =>
      let tr2 := tr1 ++ [Event.pull "main"]
      if pm.returncode = 0 then syncAfterPull env beforeFiles tr2
      else
        match env.pullMaster with
        | Outcome.exn _ => (Except.ok (false, ∅), tr2 ++ [Event.pull "master"])
        | Outcome.ok pM =>
          let tr3 := tr2 ++ [Event.pull "master"]
          if pM.returncode = 0 then syncAfterPull env beforeFiles tr3
          else (Except.ok (false, ∅), tr3)

/-- Body of the try block of AgentSync.sync: query the porcelain status; on
uncommitted modifications either abort (force false) or back up and stash
(force true); then pull.  A stash exception is caught by the top-level
handler; a stash exit code is ignored entirely. -/
def syncBody (env : SyncEnv) (force : Bool) (tr0 : List Event) :
    Except String (Bool × Finset String) × List Event :=
  match env.statusRes with
  | Outcome.exn _ => (Except.ok (false, ∅), tr0 ++ [Event.statusPorcelain])
  | Outcome.ok st =>
    let tr1 := tr0 ++ [Event.statusPorcelain]
    if pyStrip st.stdout ≠ "" then
      if force = false then (Except.ok (false, ∅), tr1)
      else
        let tr2 := tr1 ++ [Event.backupInvoked, Event.stashPush]
        match env.stashRes with
        | Outcome.exn _ => (Except.ok (false, ∅), tr2)
        | Outcome.ok _ => syncPull env tr2
    else syncPull env tr1

/-- AgentSync.sync.  The initialization step runs before the try block, so an
exception raised there escapes to the caller; everything from the status query
onward is inside the try block and converts any raise into (False, []). -/
def sync (env : SyncEnv) (force : Bool) :
    Except String (Bool × Finset String) × List Event :=
  match (if env.gitExists then (Except.ok true, ([] : List Event)) else initRepo env) with
  | (Except.error msg, tr) => (Except.error msg, tr)
  | (Except.ok false, tr) => (Except.ok (false, ∅), tr)
  | (Except.ok true, tr) => syncBody env force tr

/- ## Claim C1 -/

/-- C1: for every state in which the porcelain status query returns non-empty
output, sync with force=false returns failure with an empty changed-file list,
and the only external call made is the status query itself: in particular the
pull operation is never invoked. -/
theorem C1_dirty_guard_blocks_sync (env : SyncEnv) (st : ProcResult)
    (hinit : env.gitExists = true)
    (hst : env.statusRes = Outcome.ok st)
    (hdirty : pyStrip st.stdout ≠ "") :
    sync env false = (Except.ok (false, ∅), [Event.statusPorcelain]) ∧
    ∀ b, Event.pull b ∉ (sync env false).2 := by
  have h : sync env false = (Except.ok (false, ∅), [Event.statusPorcelain]) := by
    unfold sync
    rw [hinit]
    simp only [if_pos rfl]
    unfold syncBody
    rw [hst]
    simp [hdirty]
  refine ⟨h, ?_⟩
  intro b
  rw [h]
  simp

/-- Concrete environment with one modified file reported by the status query. -/
def envDirty : SyncEnv :=
  ⟨true, "https://github.com/example/agents.git", true, none,
    Outcome.ok ⟨0, "", ""⟩,
    Outcome.ok ⟨0, " M coder.md\n", ""⟩,
    Outcome.ok ⟨0, "", ""⟩,
    Outcome.ok ⟨0, "coder.md\n", ""⟩,
    Outcome.ok ⟨0, "", ""⟩,
    Outcome.ok ⟨0, "", ""⟩,
    Outcome.ok ⟨0, "coder.md\n", ""⟩⟩

/-- Witness for C1 at a concrete environment. -/
theorem C1_dirty_guard_blocks_sync_witness :
    sync envDirty false = (Except.ok (false, ∅), [Event.statusPorcelain]) ∧
    ∀ b, Event.pull b ∉ (sync envDirty false).2 :=
  C1_dirty_guard_blocks_sync envDirty ⟨0, " M coder.md\n", ""⟩ rfl rfl (by decide)

/- ## Claim C2 -/

/-- C2: whenever the pull succeeds, sync returns success together with the
symmetric difference of the tracked-file sets taken before and after the pull;
membership in that set means presence in exactly one of the two sets, and the
computation does not depend on which set plays the role of before and which
of after. -/
theorem C2_changed_is_symmetric_difference (env : SyncEnv) (force : Bool)
    (st bf pm af : ProcResult)
    (hinit : env.gitExists = true)
    (hst : env.statusRes = Outcome.ok st)
    (hclean : pyStrip st.stdout = "")
    (hbf : env.lsBefore = Outcome.ok bf)
    (hpm : env.pullMain = Outcome.ok pm)
    (hrc : pm.returncode = 0)
    (haf : env.lsAfter = Outcome.ok af) :
    (sync env force).1 = Except.ok (true, changed_files (tracked bf) (tracked af)) ∧
    (∀ x, x ∈ changed_files (tracked bf) (tracked af) ↔
      ((x ∈ tracked bf ∧ x ∉ tracked af) ∨ (x ∈ tracked af ∧ x ∉ tracked bf))) ∧
    changed_files (tracked bf) (tracked af) = changed_files (tracked af) (tracked bf) := by
  refine ⟨?_, ?_, ?_⟩
  · unfold sync
    rw [hinit]
    simp only [if_pos rfl]
    unfold syncBody
    rw [hst]
    simp only [hclean, ne_eq, not_true_eq_false, if_false, ite_false]
    unfold syncPull
    rw [hbf, hpm]
    simp only [hrc, if_pos rfl, ite_true]
    unfold syncAfterPull
    rw [haf]
  · intro x
    rw [changed_files, Finset.mem_symmDiff]
    tauto
  · exact symmDiff_comm _ _

/-- Concrete environment for a clean successful pull: before the pull git
tracks coder.md and planner.md, afterwards planner.md and reviewer.md. -/
def envClean : SyncEnv :=
  ⟨true, "https://github.com/example/agents.git", true, none,
    Outcome.ok ⟨0, "", ""⟩,
    Outcome.ok ⟨0, "", ""⟩,
    Outcome.ok ⟨0, "", ""⟩,
    Outcome.ok ⟨0, "coder.md\nplanner.md\n", ""⟩,
    Outcome.ok ⟨0, "Updating 1111111..2222222\n", ""⟩,
    Outcome.ok ⟨1, "", "fatal: couldnt find remote ref master\n"⟩,
    Outcome.ok ⟨0, "planner.md\nreviewer.md\n", ""⟩⟩

/-- Witness for C2 at a concrete environment. -/
theorem C2_changed_is_symmetric_difference_witness :
    (sync envClean false).1 =
      Except.ok (true, changed_files (tracked ⟨0, "coder.md\nplanner.md\n", ""⟩)
        (tracked ⟨0, "planner.md\nreviewer.md\n", ""⟩)) ∧
    (∀ x, x ∈ changed_files (tracked ⟨0, "coder.md\nplanner.md\n", ""⟩)
        (tracked ⟨0, "planner.md\nreviewer.md\n", ""⟩) ↔
      ((x ∈ tracked ⟨0, "coder.md\nplanner.md\n", ""⟩ ∧
          x ∉ tracked ⟨0, "planner.md\nreviewer.md\n", ""⟩) ∨
        (x ∈ tracked ⟨0, "planner.md\nreviewer.md\n", ""⟩ ∧
          x ∉ tracked ⟨0, "coder.md\nplanner.md\n", ""⟩))) ∧
    changed_files (tracked ⟨0, "coder.md\nplanner.md\n", ""⟩)
        (tracked ⟨0, "planner.md\nreviewer.md\n", ""⟩) =
      changed_files (tracked ⟨0, "planner.md\nreviewer.md\n", ""⟩)
        (tracked ⟨0, "coder.md\nplanner.md\n", ""⟩) :=
  C2_changed_is_symmetric_difference envClean false
    ⟨0, "", ""⟩ ⟨0, "coder.md\nplanner.md\n", ""⟩ ⟨0, "Updating 1111111..2222222\n", ""⟩
    ⟨0, "planner.md\nreviewer.md\n", ""⟩ rfl rfl rfl rfl rfl rfl rfl

/- ## Claim C4 -/

/-- Replace the stash-call outcome of an environment, leaving every other
oracle untouched. -/
def setStash (env : SyncEnv) (o : Outcome ProcResult) : SyncEnv :=
  ⟨env.gitExists, env.repoUrl, env.dirExists, env.mkdirExn, env.cloneRes, env.statusRes, o,
    env.lsBefore, env.pullMain, env.pullMaster, env.lsAfter⟩

theorem syncAfterPull_setStash (env : SyncEnv) (o : Outcome ProcResult)
    (B : Finset String) (tr : List Event) :
    syncAfterPull (setStash env o) B tr = syncAfterPull env B tr := rfl

theorem syncPull_setStash (env : SyncEnv) (o : Outcome ProcResult) (tr : List Event) :
    syncPull (setStash env o) tr = syncPull env tr := rfl

/-- Every branch of syncAfterPull extends the incoming trace. -/
theorem syncAfterPull_trace (env : SyncEnv) (B : Finset String) (tr : List Event) :
    ∃ s, (syncAfterPull env B tr).2 = tr ++ s := by
  unfold syncAfterPull
  cases env.lsAfter <;> simp

/-- Every branch of syncPull extends the incoming trace. -/
theorem syncPull_trace (env : SyncEnv) (tr : List Event) :
    ∃ s, (syncPull env tr).2 = tr ++ s := by
  unfold syncPull
  cases env.lsBefore with
  | exn m => simp
  | ok bf =>
    cases env.pullMain with
    | exn m => simp
    | ok pm =>
      by_cases h : pm.returncode = 0
      · simp only [h, ite_true]
        obtain ⟨s, hs⟩ := syncAfterPull_trace env (tracked bf)
          (tr ++ [Event.lsTree, Event.pull "main"])
        refine ⟨[Event.lsTree, Event.pull "main"] ++ s, ?_⟩
        simp only [List.append_assoc, List.cons_append, List.nil_append] at hs ⊢
        rw [hs]
      · simp only [h, ite_false]
        cases env.pullMaster with
        | exn m => exact ⟨[Event.lsTree, Event.pull "main", Event.pull "master"], by simp⟩
        | ok pM =>
          by_cases h2 : pM.returncode = 0
          · simp only [h2, ite_true]
            obtain ⟨s, hs⟩ := syncAfterPull_trace env (tracked bf)
              (tr ++ [Event.lsTree, Event.pull "main", Event.pull "master"])
            refine ⟨[Event.lsTree, Event.pull "main", Event.pull "master"] ++ s, ?_⟩
            simp only [List.append_assoc, List.cons_append, List.nil_append] at hs ⊢
            rw [hs]
          · simp only [h2, ite_false]
            exact ⟨[Event.lsTree, Event.pull "main", Event.pull "master"], by simp⟩

/-- C4: when local modifications are present and force is true, the backup is
invoked strictly before the stash, and the result of sync does not depend on
the exit code of the stash call: a failed stash is not fatal. -/
theorem C4_backup_precedes_stash (env : SyncEnv) (st : ProcResult)
    (hinit : env.gitExists = true)
    (hst : env.statusRes = Outcome.ok st)
    (hdirty : pyStrip st.stdout ≠ "") :
    (∃ rest, (sync env true).2 =
        Event.statusPorcelain :: Event.backupInvoked :: Event.stashPush :: rest) ∧
    ∀ r r2 : ProcResult,
      sync (setStash env (Outcome.ok r)) true = sync (setStash env (Outcome.ok r2)) true := by
  constructor
  · unfold sync
    rw [hinit]
    simp only [if_pos rfl]
    unfold syncBody
    rw [hst]
    simp only [hdirty, ne_eq, not_false_eq_true, ite_true, Bool.true_eq_false, if_false, ite_false]
    cases env.stashRes with
    | exn m => exact ⟨[], by simp⟩
    | ok r =>
      obtain ⟨s, hs⟩ := syncPull_trace env
        ([] ++ [Event.statusPorcelain] ++ [Event.backupInvoked, Event.stashPush])
      exact ⟨s, by simpa using hs⟩
  · intro r r2
    have key : ∀ r3 : ProcResult, sync (setStash env (Outcome.ok r3)) true =
        syncPull env ([] ++ [Event.statusPorcelain] ++ [Event.backupInvoked, Event.stashPush]) := by
      intro r3
      have hg : (setStash env (Outcome.ok r3)).gitExists = true := hinit
      have hs : (setStash env (Outcome.ok r3)).statusRes = Outcome.ok st := hst
      unfold sync
      rw [hg]
      simp only [if_pos rfl]
      unfold syncBody
      rw [hs]
      simp only [hdirty, ne_eq, not_false_eq_true, ite_true, Bool.true_eq_false, if_false,
        ite_false]
      exact syncPull_setStash env (Outcome.ok r3) _
    rw [key r, key r2]

/-- Witness for C4 at a concrete environment. -/
theorem C4_backup_precedes_stash_witness :
    (∃ rest, (sync envDirty true).2 =
        Event.statusPorcelain :: Event.backupInvoked :: Event.stashPush :: rest) ∧
    ∀ r r2 : ProcResult,
      sync (setStash envDirty (Outcome.ok r)) true = sync (setStash envDirty (Outcome.ok r2)) true :=
  C4_backup_precedes_stash envDirty ⟨0, " M coder.md\n", ""⟩ rfl rfl (by decide)

/- ## AgentSync.check_for_updates -/

/-- Environment for one invocation of AgentSync.check_for_updates. -/
structure UpdateEnv where
  /-- Whether agents_dir/.git exists, i.e. is_initialized(). -/
  gitExists : Bool
  /-- Outcome of git fetch origin. -/
  fetchRes : Outcome ProcResult
  /-- Outcome of git rev-list --count HEAD..origin/main. -/
  revMain : Outcome ProcResult
  /-- Outcome of git rev-list --count HEAD..origin/master. -/
  revMaster : Outcome ProcResult

/-- AgentSync.check_for_updates: fetch, count commits behind origin/main, on a
non-zero exit retry against origin/master, and report whether the count is
positive.  Everything is inside a try block, so any raise (including an
unparsable count, which makes the int() conversion raise) yields False.  The
int() parse of the stripped stdout is modelled with String.toInt?. -/
def check_for_updates (env : UpdateEnv) : Bool × List Event :=
  if env.gitExists = false then (false, [])
  else
    match env.fetchRes with
    | Outcome.exn _ => (false, [Event.fetch])
    | Outcome.ok _ =>
      match env.revMain with
      | Outcome.exn _ => (false, [Event.fetch, Event.revList "main"])
      | Outcome.ok r1 =>
        if r1.returncode ≠ 0 then
          match env.revMaster with
          | Outcome.exn _ =>
            (false, [Event.fetch, Event.revList "main", Event.revList "master"])
          | Outcome.ok r2 =>
            let tr := [Event.fetch, Event.revList "main", Event.revList "master"]
            if r2.returncode = 0 then
              match (pyStrip r2.stdout).toInt? with
              | some n => (decide (0 < n), tr)
              | none => (false, tr)
            else (false, tr)
        else
          let tr := [Event.fetch, Event.revList "main"]
          match (pyStrip r1.stdout).toInt? with
          | some n => (decide (0 < n), tr)
          | none => (false, tr)

/- ## Claim C5 -/

/-- Neither branch of the tail of sync can raise. -/
theorem syncAfterPull_no_raise (env : SyncEnv) (B : Finset String) (tr : List Event) :
    ∃ p, (syncAfterPull env B tr).1 = Except.ok p := by
  unfold syncAfterPull
  cases env.lsAfter <;> simp

/-- No branch of the pull stage of sync can raise. -/
theorem syncPull_no_raise (env : SyncEnv) (tr : List Event) :
    ∃ p, (syncPull env tr).1 = Except.ok p := by
  unfold syncPull
  cases env.lsBefore with
  | exn m => simp
  | ok bf =>
    cases env.pullMain with
    | exn m => simp
    | ok pm =>
      by_cases h : pm.returncode = 0
      · simp only [h, ite_true]
        exact syncAfterPull_no_raise ..
      · simp only [h, ite_false]
        cases env.pullMaster with
        | exn m => simp
        | ok pM =>
          by_cases h2 : pM.returncode = 0
          · simp only [h2, ite_true]
            exact syncAfterPull_no_raise ..
          · simp [h2]

/-- No branch of the try-block body of sync can raise. -/
theorem syncBody_no_raise (env : SyncEnv) (force : Bool) (tr0 : List Event) :
    ∃ p, (syncBody env force tr0).1 = Except.ok p := by
  unfold syncBody
  cases env.statusRes with
  | exn m => simp
  | ok st =>
    dsimp only
    by_cases hc : pyStrip st.stdout ≠ ""
    · rw [if_pos hc]
      by_cases hf : force = false
      · rw [if_pos hf]
        simp
      · rw [if_neg hf]
        cases env.stashRes with
        | exn m => simp
        | ok r => exact syncPull_no_raise ..
    · rw [if_neg hc]
      exact syncPull_no_raise ..

/-- The initialization step performs no pull. -/
theorem initRepo_no_pull (env : SyncEnv) (b : String) :
    Event.pull b ∉ (initRepo env).2 := by
  unfold initRepo
  by_cases hu : env.repoUrl = ""
  · simp [hu]
  · rw [if_neg hu]
    cases hm : (if env.dirExists then none else env.mkdirExn) with
    | some m => simp
    | none =>
      by_cases hg : env.gitExists
      · simp [hg]
      · simp only [hg, Bool.false_eq_true, if_false, ite_false]
        cases env.cloneRes with
        | exn m => simp
        | ok r =>
          by_cases hr : r.returncode = 0 <;> simp [hr]

/-- The tail of sync never appends a pull event. -/
theorem syncAfterPull_no_new_pull (env : SyncEnv) (B : Finset String) (tr : List Event)
    (b : String) (h : Event.pull b ∉ tr) :
    Event.pull b ∉ (syncAfterPull env B tr).2 := by
  unfold syncAfterPull
  cases env.lsAfter <;> simp [h]

/-- Unless the main pull completed with a non-zero exit, the master pull is
never attempted. -/
theorem syncPull_no_master (env : SyncEnv) (tr : List Event)
    (hmain : ∀ pm, env.pullMain = Outcome.ok pm → pm.returncode = 0)
    (h : Event.pull "master" ∉ tr) :
    Event.pull "master" ∉ (syncPull env tr).2 := by
  unfold syncPull
  cases env.lsBefore with
  | exn m => simp [h]
  | ok bf =>
    cases hpm : env.pullMain with
    | exn m => simp [h]
    | ok pm =>
      have hrc := hmain pm hpm
      simp only [hrc, ite_true]
      apply syncAfterPull_no_new_pull
      simp [h]

/-- Unless the main pull completed with a non-zero exit, the try-block body
never pulls master. -/
theorem syncBody_no_master (env : SyncEnv) (force : Bool) (tr0 : List Event)
    (hmain : ∀ pm, env.pullMain = Outcome.ok pm → pm.returncode = 0)
    (h0 : Event.pull "master" ∉ tr0) :
    Event.pull "master" ∉ (syncBody env force tr0).2 := by
  unfold syncBody
  cases env.statusRes with
  | exn m => simp [h0]
  | ok st =>
    dsimp only
    by_cases hc : pyStrip st.stdout ≠ ""
    · rw [if_pos hc]
      by_cases hf : force = false
      · rw [if_pos hf]
        simp [h0]
      · rw [if_neg hf]
        cases env.stashRes with
        | exn m => simp [h0]
        | ok r =>
          apply syncPull_no_master env _ hmain
          simp [h0]
    · rw [if_neg hc]
      apply syncPull_no_master env _ hmain
      simp [h0]

/-- Unless the main pull completed with a non-zero exit, sync never pulls
master. -/
theorem sync_no_master (env : SyncEnv) (force : Bool)
    (hmain : ∀ pm, env.pullMain = Outcome.ok pm → pm.returncode = 0) :
    Event.pull "master" ∉ (sync env force).2 := by
  cases hg : env.gitExists
  · unfold sync
    rw [hg]
    simp only [Bool.false_eq_true, if_false, ite_false]
    rcases hi : initRepo env with ⟨e, tr⟩
    have htr : Event.pull "master" ∉ tr := by
      have h := initRepo_no_pull env "master"
      rw [hi] at h
      exact h
    cases e with
    | error m => simpa using htr
    | ok b =>
      cases b with
      | false => simpa using htr
      | true => exact syncBody_no_master env force tr hmain htr
  · unfold sync
    rw [hg]
    simp only [if_pos rfl]
    exact syncBody_no_master env force [] hmain (by simp)

/-- C5: the update check and the sync pull both attempt the branch named main
first; master is attempted only after a non-zero exit of the main attempt; and
when both attempts exit non-zero, the update check reports no updates and sync
returns failure with an empty changed-file list, with no exception escaping
either operation.  The last two conjuncts state the only-if direction: a
master attempt in the trace of either operation implies the main attempt
completed with a non-zero exit. -/
theorem C5_branch_fallback :
    (∀ (uenv : UpdateEnv) (f r1 : ProcResult),
       uenv.gitExists = true → uenv.fetchRes = Outcome.ok f → uenv.revMain = Outcome.ok r1 →
       r1.returncode = 0 →
       (check_for_updates uenv).2 = [Event.fetch, Event.revList "main"]) ∧
    (∀ (uenv : UpdateEnv) (f r1 r2 : ProcResult),
       uenv.gitExists = true → uenv.fetchRes = Outcome.ok f → uenv.revMain = Outcome.ok r1 →
       r1.returncode ≠ 0 → uenv.revMaster = Outcome.ok r2 → r2.returncode ≠ 0 →
       check_for_updates uenv =
         (false, [Event.fetch, Event.revList "main", Event.revList "master"])) ∧
    (∀ (env : SyncEnv) (force : Bool) (st bf pm pM : ProcResult),
       env.gitExists = true → env.statusRes = Outcome.ok st → pyStrip st.stdout = "" →
       env.lsBefore = Outcome.ok bf → env.pullMain = Outcome.ok pm → pm.returncode ≠ 0 →
       env.pullMaster = Outcome.ok pM → pM.returncode ≠ 0 →
       sync env force = (Except.ok (false, ∅),
         [Event.statusPorcelain, Event.lsTree, Event.pull "main", Event.pull "master"])) ∧
    (∀ (env : SyncEnv) (force : Bool) (pm : ProcResult),
       env.pullMain = Outcome.ok pm → pm.returncode = 0 →
       Event.pull "master" ∉ (sync env force).2) ∧
    (∀ uenv : UpdateEnv, Event.revList "master" ∈ (check_for_updates uenv).2 →
       ∃ r1, uenv.revMain = Outcome.ok r1 ∧ r1.returncode ≠ 0) ∧
    (∀ (env : SyncEnv) (force : Bool), Event.pull "master" ∈ (sync env force).2 →
       ∃ pm, env.pullMain = Outcome.ok pm ∧ pm.returncode ≠ 0) := by
  refine ⟨?_, ?_, ?_, ?_, ?_, ?_⟩
  · intro uenv f r1 hg hf h1 hrc
    unfold check_for_updates
    rw [hg, hf, h1]
    simp only [hrc, ne_eq, not_true_eq_false, if_false, ite_false, Bool.true_eq_false]
    cases (pyStrip r1.stdout).toInt? <;> simp
  · intro uenv f r1 r2 hg hf h1 hrc h2 hrc2
    unfold check_for_updates
    rw [hg, hf, h1]
    simp only [hrc, ne_eq, not_false_eq_true, ite_true, if_true, Bool.true_eq_false, if_false]
    rw [h2]
    simp [hrc2]
  · intro env force st bf pm pM hg hst hclean hbf hpm hrc hpM hrc2
    unfold sync
    rw [hg]
    simp only [if_pos rfl]
    unfold syncBody
    rw [hst]
    simp only [hclean, ne_eq, not_true_eq_false, if_false, ite_false]
    unfold syncPull
    rw [hbf, hpm]
    simp only [hrc, ite_false, if_false]
    rw [hpM]
    simp [hrc2]
  · intro env force pm hpm hrc
    refine sync_no_master env force ?_
    intro pm2 hpm2
    rw [hpm] at hpm2
    injection hpm2 with he
    rw [← he]
    exact hrc
  · intro uenv hmem
    unfold check_for_updates at hmem
    by_cases hg : uenv.gitExists = false
    · rw [if_pos hg] at hmem
      simp at hmem
    · rw [if_neg hg] at hmem
      cases hf : uenv.fetchRes with
      | exn m =>
        rw [hf] at hmem
        simp at hmem
      | ok f =>
        rw [hf] at hmem
        cases h1 : uenv.revMain with
        | exn m =>
          rw [h1] at hmem
          simp at hmem
        | ok r1 =>
          rw [h1] at hmem
          dsimp only at hmem
          by_cases hrc : r1.returncode ≠ 0
          · exact ⟨r1, rfl, hrc⟩
          · rw [if_neg hrc] at hmem
            cases hti : (pyStrip r1.stdout).toInt? with
            | none =>
              rw [hti] at hmem
              simp at hmem
            | some n =>
              rw [hti] at hmem
              simp at hmem
  · intro env force hmem
    by_cases hmain : ∀ pm, env.pullMain = Outcome.ok pm → pm.returncode = 0
    · exact absurd hmem (sync_no_master env force hmain)
    · push_neg at hmain
      exact hmain

/-- Concrete update-check environment in which both rev-list attempts fail. -/
def uenvBoth : UpdateEnv :=
  ⟨true, Outcome.ok ⟨0, "", ""⟩,
    Outcome.ok ⟨128, "", "fatal: bad revision\n"⟩,
    Outcome.ok ⟨128, "", "fatal: bad revision\n"⟩⟩

/-- Concrete sync environment in which both pull attempts fail. -/
def envBoth : SyncEnv :=
  ⟨true, "https://github.com/example/agents.git", true, none,
    Outcome.ok ⟨0, "", ""⟩,
    Outcome.ok ⟨0, "", ""⟩,
    Outcome.ok ⟨0, "", ""⟩,
    Outcome.ok ⟨0, "coder.md\n", ""⟩,
    Outcome.ok ⟨1, "", "fatal: couldnt find remote ref main\n"⟩,
    Outcome.ok ⟨1, "", "fatal: couldnt find remote ref master\n"⟩,
    Outcome.ok ⟨0, "coder.md\n", ""⟩⟩

/-- Witness for C5 at concrete environments. -/
theorem C5_branch_fallback_witness :
    check_for_updates uenvBoth =
      (false, [Event.fetch, Event.revList "main", Event.revList "master"]) ∧
    sync envBoth false = (Except.ok (false, ∅),
      [Event.statusPorcelain, Event.lsTree, Event.pull "main", Event.pull "master"]) :=
  ⟨C5_branch_fallback.2.1 uenvBoth ⟨0, "", ""⟩ ⟨128, "", "fatal: bad revision\n"⟩
      ⟨128, "", "fatal: bad revision\n"⟩ rfl rfl rfl (by decide) rfl (by decide),
    C5_branch_fallback.2.2.1 envBoth false ⟨0, "", ""⟩ ⟨0, "coder.md\n", ""⟩
      ⟨1, "", "fatal: couldnt find remote ref main\n"⟩
      ⟨1, "", "fatal: couldnt find remote ref master\n"⟩
      rfl rfl rfl rfl rfl (by decide) rfl (by decide)⟩

/- ## Claim C6 -/

/-- Concrete environment in which the directory-creation step of the
initialization raises: the directory does not exist, a remote URL is set, and
mkdir fails with a permission error. -/
def envRaise : SyncEnv :=
  ⟨false, "https://github.com/example/agents.git", false, some "Permission denied",
    Outcome.ok ⟨0, "", ""⟩,
    Outcome.ok ⟨0, "", ""⟩,
    Outcome.ok ⟨0, "", ""⟩,
    Outcome.ok ⟨0, "", ""⟩,
    Outcome.ok ⟨0, "", ""⟩,
    Outcome.ok ⟨0, "", ""⟩,
    Outcome.ok ⟨0, "", ""⟩⟩

/-- Counterexample to C6 as stated: an exception raised during the
initialization step of sync escapes to the caller instead of being converted
to a failure result, because the initialization block sits before the try
block and the mkdir call inside initialize is not guarded. -/
theorem C6_counterexample :
    (sync envRaise false).1 = Except.error "Permission denied" := rfl

/-- An error result of the initialization step can only come from the
unguarded mkdir call: the directory was missing, a URL was configured, and
mkdir raised that very message. -/
theorem initRepo_error (env : SyncEnv) (msg : String)
    (h : (initRepo env).1 = Except.error msg) :
    env.dirExists = false ∧ env.repoUrl ≠ "" ∧ env.mkdirExn = some msg := by
  unfold initRepo at h
  by_cases hu : env.repoUrl = ""
  · rw [if_pos hu] at h
    simp at h
  · rw [if_neg hu] at h
    cases hd : env.dirExists
    · rw [hd] at h
      simp only [Bool.false_eq_true, if_false, ite_false] at h
      cases hm : env.mkdirExn with
      | none =>
        rw [hm] at h
        by_cases hg : env.gitExists
        · simp [hg] at h
        · simp only [hg, Bool.false_eq_true, if_false, ite_false] at h
          cases hcl : env.cloneRes with
          | exn m2 => rw [hcl] at h; simp at h
          | ok r =>
            rw [hcl] at h
            by_cases hr : r.returncode = 0 <;> simp [hr] at h
      | some m =>
        rw [hm] at h
        simp only [Except.error.injEq] at h
        exact ⟨rfl, hu, by rw [h]⟩
    · rw [hd] at h
      simp only [if_pos rfl, ite_true] at h
      by_cases hg : env.gitExists
      · simp [hg] at h
      · simp only [hg, Bool.false_eq_true, if_false, ite_false] at h
        cases hcl : env.cloneRes with
        | exn m2 => rw [hcl] at h; simp at h
        | ok r =>
          rw [hcl] at h
          by_cases hr : r.returncode = 0 <;> simp [hr] at h

/-- C6 amended: every exception raised from the status query onward is caught
at the top level of sync and converted to a failure result, and the only way
an exception can escape sync is the unguarded directory creation inside the
initialization step: the local mirror did not exist yet, a remote URL was
configured, and mkdir raised exactly the escaping message. -/
theorem C6_exception_escape_only_from_init (env : SyncEnv) (force : Bool) (msg : String)
    (h : (sync env force).1 = Except.error msg) :
    env.gitExists = false ∧ env.dirExists = false ∧ env.repoUrl ≠ "" ∧
      env.mkdirExn = some msg := by
  cases hg : env.gitExists
  · unfold sync at h
    rw [hg] at h
    simp only [Bool.false_eq_true, if_false, ite_false] at h
    rcases hi : initRepo env with ⟨e, tr⟩
    rw [hi] at h
    cases e with
    | error m =>
      simp only [Except.error.injEq] at h
      have h2 : (initRepo env).1 = Except.error msg := by rw [hi, h]
      exact ⟨rfl, initRepo_error env msg h2⟩
    | ok b =>
      cases b with
      | false => simp at h
      | true =>
        obtain ⟨p, hp⟩ := syncBody_no_raise env force tr
        rw [hp] at h
        simp at h
  · exfalso
    unfold sync at h
    rw [hg] at h
    simp at h
    obtain ⟨p, hp⟩ := syncBody_no_raise env force []
    rw [hp] at h
    simp at h

/-- Witness for the amended C6 at the concrete escaping environment. -/
theorem C6_exception_escape_only_from_init_witness :
    envRaise.gitExists = false ∧ envRaise.dirExists = false ∧ envRaise.repoUrl ≠ "" ∧
      envRaise.mkdirExn = some "Permission denied" :=
  C6_exception_escape_only_from_init envRaise false "Permission denied" rfl

/- ## Order lemmas for the structural string order -/

theorem charsLt_irrefl : ∀ l : List Char, charsLt l l = false
  | [] => rfl
  | c :: cs => by simp [charsLt, charsLt_irrefl cs]

theorem charsLt_trans : ∀ {a b c : List Char},
    charsLt a b = true → charsLt b c = true → charsLt a c = true
  | [], [], _, h1, _ => by simp [charsLt] at h1
  | [], _ :: _, [], _, h2 => by simp [charsLt] at h2
  | [], _ :: _, _ :: _, _, _ => rfl
  | _ :: _, [], _, h1, _ => by simp [charsLt] at h1
  | _ :: _, _ :: _, [], _, h2 => by simp [charsLt] at h2
  | a :: as, b :: bs, c :: cs, h1, h2 => by
    simp only [charsLt] at h1 h2 ⊢
    by_cases hab : a = b
    · subst hab
      by_cases hbc : a = c
      · subst hbc
        simp only [if_pos rfl] at h1 h2 ⊢
        exact charsLt_trans h1 h2
      · simp only [if_neg hbc] at h2 ⊢
        simpa using h2
    · by_cases hbc : b = c
      · subst hbc
        simp only [if_neg hab] at h1 ⊢
        exact h1
      · simp only [if_neg hab, decide_eq_true_eq] at h1
        simp only [if_neg hbc, decide_eq_true_eq] at h2
        have hac : a < c := lt_trans h1 h2
        simp [if_neg (ne_of_lt hac), hac]

theorem charsLt_append_left (p : List Char) {a b : List Char} (h : charsLt a b = true) :
    charsLt (p ++ a) (p ++ b) = true := by
  induction p with
  | nil => simpa using h
  | cons c cs ih => simpa [charsLt] using ih

theorem strLt_irrefl (a : String) : strLt a a = false := charsLt_irrefl a.data

theorem strLt_trans {a b c : String} (h1 : strLt a b = true) (h2 : strLt b c = true) :
    strLt a c = true := charsLt_trans h1 h2

theorem strLt_append_left (p : String) {a b : String} (h : strLt a b = true) :
    strLt (p ++ a) (p ++ b) = true := by
  unfold strLt at h ⊢
  rw [String.data_append, String.data_append]
  exact charsLt_append_left _ h

theorem strLe_of_strLt {a b : String} (h : strLt a b = true) : strLe a b = true := by
  unfold strLe
  cases hba : strLt b a
  · rfl
  · exact absurd (strLt_trans h hba) (by simp [strLt_irrefl])

/- ## AgentSync.backup -/

/-- Name of the snapshot directory created for clock reading t, as formatted
by backup: the fixed stem followed by the timestamp. -/
def backupName (t : String) : String := "backup_" ++ t

/-- The last five entries of a listing: what survives the deletion of
backups[:-5]. -/
def lastFive (l : List String) : List String := l.drop (l.length - 5)

/-- AgentSync.backup, acting on the listing of snapshot directories under the
backups root, with every filesystem operation succeeding.  The clock reads t.
Creating the snapshot directory raises FileExistsError when a snapshot of the
same name already exists; that raise is caught and turned into None with the
listing unchanged.  Otherwise the new directory is created, the content files
are copied, the glob listing (the new directory included, the enumeration
order immaterial because sorted() normalises it) is sorted lexicographically,
and every entry except the last five is deleted. -/
def backup (dirs : List String) (t : String) : Option (List String) :=
  if backupName t ∈ dirs then none
  else some (lastFive (List.insertionSort sortLe (backupName t :: dirs)))

/-- Successive invocations of backup: fold over the successive clock readings,
a failed invocation leaving the listing unchanged. -/
def backupRun (dirs : List String) (ts : List String) : List String :=
  ts.foldl (fun s t => (backup s t).getD s) dirs

/- ## Claim C3 -/

theorem orderedInsert_max : ∀ (l : List String) (a : String),
    (∀ x ∈ l, strLt x a = true) → l.orderedInsert sortLe a = l ++ [a]
  | [], _, _ => rfl
  | b :: l, a, h => by
    have hb : strLt b a = true := h b (List.mem_cons_self b l)
    have hnot : ¬ sortLe a b := by
      unfold sortLe strLe
      simp [hb]
    rw [List.orderedInsert, if_neg hnot,
      orderedInsert_max l a fun x hx => h x (List.mem_cons_of_mem b hx)]
    rfl

/-- Inserting a strict upper bound into a sorted listing appends it at the
end. -/
theorem insertionSort_snoc (l : List String) (a : String)
    (hs : List.Pairwise (fun x y => strLt x y = true) l)
    (h : ∀ x ∈ l, strLt x a = true) :
    List.insertionSort sortLe (a :: l) = l ++ [a] := by
  have hs2 : List.Sorted sortLe l := hs.imp fun hxy => strLe_of_strLt hxy
  rw [List.insertionSort]
  rw [List.Sorted.insertionSort_eq hs2]
  exact orderedInsert_max l a h

theorem lastFive_append (l : List String) (a : String) :
    lastFive (lastFive l ++ [a]) = lastFive (l ++ [a]) := by
  unfold lastFive
  rcases le_or_lt l.length 5 with h | h
  · have h1 : l.length - 5 = 0 := by omega
    rw [h1, List.drop_zero]
  · have hlen : (l.drop (l.length - 5)).length = 5 := by
      rw [List.length_drop]
      omega
    rw [List.length_append, hlen, List.length_append]
    simp only [List.length_singleton]
    have e1 : (5 : ℕ) + 1 - 5 = 1 := by omega
    rw [e1]
    rw [List.drop_append_of_le_length (by omega : 1 ≤ (l.drop (l.length - 5)).length)]
    rw [List.drop_drop]
    rw [List.drop_append_of_le_length (by omega : l.length + 1 - 5 ≤ l.length)]
    congr 2
    omega

/-- Running backup from an empty backups root over strictly increasing clock
readings leaves exactly the last five snapshot names. -/
theorem backupRun_eq (ts : List String)
    (hs : List.Pairwise (fun a b => strLt a b = true) ts) :
    backupRun [] ts = lastFive (ts.map backupName) := by
  induction ts using List.reverseRecOn with
  | nil => rfl
  | append_singleton p t ih =>
    rw [List.pairwise_append] at hs
    obtain ⟨hp, _, hlast⟩ := hs
    have hrun : backupRun [] (p ++ [t]) = (backup (backupRun [] p) t).getD (backupRun [] p) := by
      unfold backupRun
      rw [List.foldl_append]
      rfl
    have hS : backupRun [] p = lastFive (p.map backupName) := ih hp
    have hmapsorted : List.Pairwise (fun a b => strLt a b = true) (p.map backupName) := by
      refine List.Pairwise.map backupName ?_ hp
      intro a b hab
      exact strLt_append_left _ hab
    have hSsorted : List.Pairwise (fun a b => strLt a b = true) (lastFive (p.map backupName)) :=
      List.Pairwise.sublist (List.drop_sublist _ _) hmapsorted
    have hbound : ∀ x ∈ lastFive (p.map backupName), strLt x (backupName t) = true := by
      intro x hx
      have hx2 : x ∈ p.map backupName := (List.drop_sublist _ _).subset hx
      obtain ⟨y, hy, rfl⟩ := List.mem_map.mp hx2
      exact strLt_append_left _ (hlast y hy t (List.mem_singleton_self t))
    have hnotmem : backupName t ∉ lastFive (p.map backupName) := by
      intro hmem
      have := hbound _ hmem
      simp [strLt_irrefl] at this
    rw [hrun, hS]
    unfold backup
    rw [if_neg hnotmem]
    rw [insertionSort_snoc _ _ hSsorted hbound]
    rw [lastFive_append]
    simp

/-- C3: after every successful invocation of backup at most five snapshot
directories remain under the backups root, and after six or more successive
backups with strictly increasing timestamps, starting from an empty backups
root, the listing is exactly the names of the five most recent timestamps:
the retention keeps the five lexicographically greatest names, which for the
sortable timestamp format are the five most recently created snapshots. -/
theorem C3_backup_retention :
    (∀ (dirs : List String) (t : String) (dirs2 : List String),
        backup dirs t = some dirs2 → dirs2.length ≤ 5) ∧
    (∀ ts : List String, List.Pairwise (fun a b => strLt a b = true) ts → 6 ≤ ts.length →
        backupRun [] ts = (ts.drop (ts.length - 5)).map backupName ∧
        (backupRun [] ts).length = 5) := by
  constructor
  · intro dirs t dirs2 h
    unfold backup at h
    by_cases hm : backupName t ∈ dirs
    · rw [if_pos hm] at h
      simp at h
    · rw [if_neg hm] at h
      simp only [Option.some.injEq] at h
      subst h
      unfold lastFive
      rw [List.length_drop]
      omega
  · intro ts hs hlen
    have h := backupRun_eq ts hs
    have hmap : lastFive (ts.map backupName) = (ts.drop (ts.length - 5)).map backupName := by
      unfold lastFive
      rw [List.length_map, List.map_drop]
    refine ⟨by rw [h, hmap], ?_⟩
    rw [h]
    unfold lastFive
    rw [List.length_drop, List.length_map]
    omega

/-- Six strictly increasing timestamps in the format used by backup. -/
def sixStamps : List String :=
  ["20240101_090000", "20240102_090000", "20240103_090000",
   "20240104_090000", "20240105_090000", "20240106_090000"]

/-- Witness for C3: six successive backups retain exactly the five newest. -/
theorem C3_backup_retention_witness :
    backupRun [] sixStamps = (sixStamps.drop (sixStamps.length - 5)).map backupName ∧
    (backupRun [] sixStamps).length = 5 :=
  C3_backup_retention.2 sixStamps (by decide) (by decide)

/- ## AgentSync.list_agents role extraction -/

/-- Truncation applied by list_agents to a candidate role line:
next_line[:100] plus an ellipsis marker when the line exceeds 100
characters. -/
def truncateRole (n : String) : String :=
  if n.data.length > 100 then (⟨n.data.take 100⟩ : String) ++ "..." else n

/-- Inner loop of the role scan: walk the lines after the heading and return
the first whose stripped form is non-empty and does not start with a hash
mark, truncated. -/
def roleAfterHeading : List String → Option String
  | [] => none
  | l :: ls =>
    if (pyStrip l != "") && !(pyStartsWith (pyStrip l) "#") then
      some (truncateRole (pyStrip l))
    else roleAfterHeading ls

/-- Outer loop of the role scan: find the first line whose stripped form
starts with the role-heading marker and scan the remaining lines.  The code
computes lines.index(line) to locate the scan start; since iteration stops at
the first matching line, that index is exactly the position of the match. -/
def findRole : List String → Option String
  | [] => none
  | l :: ls =>
    if pyStartsWith (pyStrip l) "## Role" then roleAfterHeading ls
    else findRole ls

/-- Role summary computed by list_agents for a file read as a list of lines:
scan at most the first ten lines; the Python expression
role or default-sentinel also replaces an empty extracted role. -/
def agentRole (fileLines : List String) : String :=
  match findRole (fileLines.take 10) with
  | some r => if r = "" then "No description available" else r
  | none => "No description available"

/-- Modelled from the amended specification wording: among the first ten
lines, skip everything before the first line whose stripped form starts with
the marker double-hash Role; when such a heading exists, take the first
subsequent non-empty non-heading line, stripped and truncated to 100
characters with an ellipsis marker when longer; otherwise the unavailable
sentinel. -/
def specRole (fileLines : List String) : String :=
  match (fileLines.take 10).dropWhile (fun l => !(pyStartsWith (pyStrip l) "## Role")) with
  | [] => "No description available"
  | _ :: after =>
    match after.find? (fun l => (pyStrip l != "") && !(pyStartsWith (pyStrip l) "#")) with
    | none => "No description available"
    | some l => truncateRole (pyStrip l)

/- ## Claim C7 -/

theorem roleAfterHeading_eq_find (ls : List String) :
    roleAfterHeading ls =
      (ls.find? fun l => (pyStrip l != "") && !(pyStartsWith (pyStrip l) "#")).map
        fun l => truncateRole (pyStrip l) := by
  induction ls with
  | nil => rfl
  | cons l ls ih =>
    by_cases h : ((pyStrip l != "") && !(pyStartsWith (pyStrip l) "#")) = true
    · have hf : List.find? (fun l => (pyStrip l != "") && !(pyStartsWith (pyStrip l) "#"))
          (l :: ls) = some l := List.find?_cons_of_pos _ h
      rw [roleAfterHeading, if_pos h, hf]
      rfl
    · have hf : List.find? (fun l => (pyStrip l != "") && !(pyStartsWith (pyStrip l) "#"))
          (l :: ls) = List.find? (fun l => (pyStrip l != "") && !(pyStartsWith (pyStrip l) "#"))
          ls := List.find?_cons_of_neg _ (by simpa using h)
      rw [roleAfterHeading, if_neg h, hf, ih]

theorem findRole_eq_dropWhile (ls : List String) :
    findRole ls =
      match ls.dropWhile (fun l => !(pyStartsWith (pyStrip l) "## Role")) with
      | [] => none
      | _ :: after => roleAfterHeading after := by
  induction ls with
  | nil => rfl
  | cons l ls ih =>
    by_cases h : pyStartsWith (pyStrip l) "## Role" = true
    · rw [findRole, if_pos h, List.dropWhile_cons]
      simp [h]
    · rw [findRole, if_neg h, List.dropWhile_cons]
      simp only [h, Bool.not_false, if_true, ite_true]
      exact ih

/-- A truncated non-empty line is non-empty. -/
theorem truncateRole_ne_empty {s : String} (h : s ≠ "") : truncateRole s ≠ "" := by
  unfold truncateRole
  by_cases hl : s.data.length > 100
  · rw [if_pos hl]
    intro hc
    have hlen : ((⟨s.data.take 100⟩ : String) ++ ("..." : String)).data.length = 0 := by
      rw [hc]
      rfl
    rw [String.data_append] at hlen
    rw [List.length_append] at hlen
    simp at hlen
  · rw [if_neg hl]
    exact h

/-- C7 amended: the role summary computed by list_agents agrees, on every
file, with the specification reading in which the heading test is a starts
with comparison rather than literal equality: find the first of the first ten
lines whose stripped form starts with the role marker, then report the first
subsequent non-empty non-heading line stripped and truncated, and otherwise
the unavailable sentinel. -/
theorem C7_role_extraction_startswith (fileLines : List String) :
    agentRole fileLines = specRole fileLines := by
  unfold agentRole specRole
  rw [findRole_eq_dropWhile]
  cases hd : (fileLines.take 10).dropWhile (fun l => !(pyStartsWith (pyStrip l) "## Role")) with
  | nil => rfl
  | cons x after =>
    dsimp only
    rw [roleAfterHeading_eq_find]
    cases hf : after.find? (fun l => (pyStrip l != "") && !(pyStartsWith (pyStrip l) "#")) with
    | none => rfl
    | some l =>
      simp only [Option.map_some']
      have hp := List.find?_some hf
      have hne : pyStrip l ≠ "" := by
        have := (Bool.and_eq_true _ _).mp hp
        simpa using this.1
      rw [if_neg (truncateRole_ne_empty hne)]

/-- Counterexample to C7 as stated: this file contains no line whose stripped
form is literally equal to the role heading, yet list_agents does not report
the unavailable sentinel, because the code tests startswith rather than
equality and the first line starts with the marker. -/
theorem C7_counterexample :
    (∀ l ∈ ["## Roleplay agent", "Acts out scenes"], pyStrip l ≠ "## Role") ∧
    agentRole ["## Roleplay agent", "Acts out scenes"] = "Acts out scenes" ∧
    agentRole ["## Roleplay agent", "Acts out scenes"] ≠ "No description available" := by
  decide

/- ## AgentSync.get_agent -/

/-- Filesystem oracle for agent retrieval: the contents of each path inside
the agents directory, plus whether reading a path raises after the existence
check succeeded. -/
structure AgentFS where
  contents : String → Option String
  readRaises : String → Bool

/-- AgentSync.get_agent: resolve the name by appending the canonical
extension; when that path does not exist, fall back to the literal name; then
return the full contents, or None when neither path exists or when opening
and reading the chosen file raises (the raise is caught and logged). -/
def get_agent (fs : AgentFS) (agent_name : String) : Option String :=
  let withExt := agent_name ++ ".md"
  let agent_file := if (fs.contents withExt).isSome then withExt else agent_name
  match fs.contents agent_file with
  | none => none
  | some c => if fs.readRaises agent_file then none else some c

/- ## Claim C8 -/

/-- C8: writing content at name.md makes get_agent return exactly that
content both for the bare name and for the name already carrying the
extension (provided no shadowing name.md.md file exists, which is what the
extension-first lookup would otherwise pick); and when neither candidate path
exists, or the read of the chosen file fails, the absent value is returned. -/
theorem C8_get_agent_round_trip (fs : AgentFS) (name content : String)
    (hw : fs.contents (name ++ ".md") = some content)
    (hr : fs.readRaises (name ++ ".md") = false)
    (hshadow : fs.contents (name ++ ".md" ++ ".md") = none) :
    get_agent fs name = some content ∧
    get_agent fs (name ++ ".md") = some content ∧
    (∀ (fs2 : AgentFS) (nm : String),
        fs2.contents (nm ++ ".md") = none → fs2.contents nm = none →
        get_agent fs2 nm = none) ∧
    (∀ (fs2 : AgentFS) (nm c : String),
        fs2.contents (nm ++ ".md") = some c → fs2.readRaises (nm ++ ".md") = true →
        get_agent fs2 nm = none) := by
  refine ⟨?_, ?_, ?_, ?_⟩
  · unfold get_agent
    simp [hw, hr]
  · unfold get_agent
    simp [hshadow, hw, hr]
  · intro fs2 nm h1 h2
    unfold get_agent
    simp [h1, h2]
  · intro fs2 nm c h1 h2
    unfold get_agent
    simp [h1, h2]

/-- Concrete one-file agents directory. -/
def fsFoo : AgentFS :=
  ⟨fun p => if p = "foo.md" then some "You are a helpful coder." else none,
    fun _ => false⟩

/-- Witness for C8 at a concrete directory. -/
theorem C8_get_agent_round_trip_witness :
    get_agent fsFoo "foo" = some "You are a helpful coder." ∧
    get_agent fsFoo "foo.md" = some "You are a helpful coder." :=
  ⟨(C8_get_agent_round_trip fsFoo "foo" "You are a helpful coder." rfl rfl rfl).1,
    (C8_get_agent_round_trip fsFoo "foo" "You are a helpful coder." rfl rfl rfl).2.1⟩

/- ## The command-line entry point -/

/-- Parsed command-line flags. -/
structure CliArgs where
  syncFlag : Bool
  statusFlag : Bool
  listFlag : Bool
  getArg : Option String
  backupFlag : Bool
  forceFlag : Bool

/-- Results of the AgentSync calls the entry point can make, as returned
values (the entry point itself installs no exception handler). -/
structure CliEnv where
  /-- Value returned by sync.sync(force). -/
  syncRes : Bool × List String
  /-- Value returned by sync.get_agent(args.get). -/
  getRes : Option String
  /-- Value returned by sync.backup(). -/
  backupRes : Option String

/-- Truthiness of args.get in the elif chain: a string option is truthy when
present and non-empty. -/
def getActive (args : CliArgs) : Bool :=
  match args.getArg with
  | some g => g != ""
  | none => false

/-- Exit code of the command-line entry point: 1 exactly on the sys.exit(1)
paths, and 0 when main falls through to the end of the dispatch.  Note the
retrieval branch also treats an empty returned content as not found, because
the code tests the truthiness of the content string.  The source calls this
function main; that name is reserved in Lean, hence mainExit. -/
def mainExit (args : CliArgs) (env : CliEnv) : Nat :=
  if args.syncFlag then
    if env.syncRes.1 then 0 else 1
  else if args.statusFlag then 0
  else if args.listFlag then 0
  else if getActive args then
    match env.getRes with
    | some c => if c = "" then 1 else 0
    | none => 1
  else if args.backupFlag then
    match env.backupRes with
    | some _ => 0
    | none => 1
  else 0

/- ## Claim C9 -/

/-- Invocation carrying only the backup flag. -/
def backupOnlyArgs : CliArgs := ⟨false, false, false, none, true, false⟩

/-- Environment in which the backup call fails and returns None. -/
def cliFailEnv : CliEnv := ⟨(true, []), none, none⟩

/-- Counterexample to C9 as stated: a backup invocation whose backup call
fails exits with code 1, while the claim says backup invocations always exit
0. -/
theorem C9_counterexample :
    mainExit backupOnlyArgs cliFailEnv = 1 ∧
    backupOnlyArgs.syncFlag = false ∧ getActive backupOnlyArgs = false ∧
    backupOnlyArgs.backupFlag = true := by
  decide

/-- C9 amended: the entry point exits with code 1 exactly when the sync
invocation fails, when a get-by-name retrieval yields no content or empty
content, or when a backup invocation fails; every other invocation (status,
list, help, and the successful cases) exits 0. -/
theorem C9_exit_codes (args : CliArgs) (env : CliEnv) :
    (mainExit args env = 0 ∨ mainExit args env = 1) ∧
    (mainExit args env = 1 ↔
      ((args.syncFlag = true ∧ env.syncRes.1 = false) ∨
       (args.syncFlag = false ∧ args.statusFlag = false ∧ args.listFlag = false ∧
         getActive args = true ∧ (env.getRes = none ∨ env.getRes = some "")) ∨
       (args.syncFlag = false ∧ args.statusFlag = false ∧ args.listFlag = false ∧
         getActive args = false ∧ args.backupFlag = true ∧ env.backupRes = none))) := by
  obtain ⟨sf, stf, lf, g, bf, ff⟩ := args
  obtain ⟨⟨sb, sl⟩, gr, br⟩ := env
  cases sf <;> cases stf <;> cases lf <;> cases bf <;> cases sb <;>
    rcases gr with _ | c <;> rcases br with _ | bp <;> rcases g with _ | gs <;>
    constructor <;>
    first
      | (by_cases hgs : gs = "" <;> by_cases hcc : c = "" <;>
          simp [mainExit, getActive, hgs, hcc])
      | (by_cases hgs : gs = "" <;> simp [mainExit, getActive, hgs])
      | (by_cases hcc : c = "" <;> simp [mainExit, getActive, hcc])
      | simp [mainExit, getActive]

/- ## AgentSync.get_status -/

/-- The composite report built by get_status. -/
structure StatusReport where
  hasRepo : Bool
  agents_dir : String
  repo_url : String
  last_sync : Option String
  total_agents : Nat
  has_updates : Bool
  local_changes : List String
deriving DecidableEq

/-- Environment for one invocation of get_status. -/
structure StatusEnv where
  /-- Whether agents_dir/.git exists, i.e. is_initialized(). -/
  gitExists : Bool
  /-- String form of the agents directory. -/
  dirStr : String
  /-- Configured repository URL. -/
  repoUrl : String
  /-- Number of content files found by the glob over the agents directory. -/
  mdCount : Nat
  /-- Whether the log file exists. -/
  logExists : Bool
  /-- Outcome of reading all lines of the log file. -/
  logRead : Outcome (List String)
  /-- Oracle for the embedded check_for_updates call. -/
  upd : UpdateEnv
  /-- Outcome of git status --porcelain. -/
  statusRes : Outcome ProcResult

/-- AgentSync.get_status: when the repository is not initialized, the default
skeleton report is returned and no git call, glob or log read happens at all;
otherwise the agent count, the last-sync timestamp (text before the first
separator of the final log line; the headD default is never used because
splitOn returns a non-empty list), the update flag and the local-change lines
are filled in best-effort, with read failures leaving the default in place. -/
def get_status (env : StatusEnv) : StatusReport × List Event :=
  if env.gitExists = false then
    (⟨false, env.dirStr, env.repoUrl, none, 0, false, []⟩, [])
  else
    let lastSync : Option String × List Event :=
      if env.logExists then
        match env.logRead with
        | Outcome.exn _ => (none, [Event.readLog])
        | Outcome.ok lines =>
          match lines.getLast? with
          | none => (none, [Event.readLog])
          | some last => (some ((last.splitOn " - ").headD ""), [Event.readLog])
      else (none, [])
    let updRes := check_for_updates env.upd
    let localCh : List String × List Event :=
      match env.statusRes with
      | Outcome.exn _ => ([], [Event.statusPorcelain])
      | Outcome.ok st =>
        (if st.stdout ≠ "" then pySplitNl (pyStrip st.stdout) else [], [Event.statusPorcelain])
    (⟨true, env.dirStr, env.repoUrl, lastSync.1, env.mdCount, updRes.1, localCh.1⟩,
      Event.globMd :: (lastSync.2 ++ updRes.2 ++ localCh.2))

/- ## Claim C10 -/

/-- C10: for a configuration whose local directory lacks the version-control
metadata, get_status returns the default report with agent count 0, absent
last-sync timestamp, no updates and an empty local-change list, and performs
no external call at all: the trace is empty, so in particular no
version-control client operation runs and the log file is not read. -/
theorem C10_get_status_uninitialized (env : StatusEnv) (h : env.gitExists = false) :
    get_status env = (⟨false, env.dirStr, env.repoUrl, none, 0, false, []⟩, []) := by
  unfold get_status
  rw [h]
  simp

/-- Concrete uninitialized configuration whose oracles would all answer, to
show none of them is consulted. -/
def statusEnvFresh : StatusEnv :=
  ⟨false, "/home/user/agents", "https://github.com/example/agents.git", 3, true,
    Outcome.ok ["2024-01-01 09:00:00 - Synced successfully. 2 files changed."],
    ⟨true, Outcome.ok ⟨0, "", ""⟩, Outcome.ok ⟨0, "1\n", ""⟩, Outcome.ok ⟨0, "0\n", ""⟩⟩,
    Outcome.ok ⟨0, "", ""⟩⟩

/-- Witness for C10 at a concrete environment. -/
theorem C10_get_status_uninitialized_witness :
    get_status statusEnvFresh =
      (⟨false, "/home/user/agents", "https://github.com/example/agents.git",
        none, 0, false, []⟩, []) :=
  C10_get_status_uninitialized statusEnvFresh rfl
